import Mathlib

/-! PhotonTrackedTarget: shallow embedding and verification

Embedding of `photon::PhotonTrackedTarget`
(`src/photon-targeting/src/main/native/include/photon/targeting/PhotonTrackedTarget.h`)
and of its wire codec.

Modelling conventions:
* IEEE doubles and floats are carried around and serialized bit-exactly by the
  code (the codec copies their bit patterns; equality is exact), so a `double`
  is modelled as its 64-bit pattern (a `Nat` below `256^8`) and a `float` as
  its 32-bit pattern (a `Nat` below `256^4`).  Named constants give the bit
  patterns of the particular values the spec talks about (0.0, 1.0, -1.0).
* C++ `int` is modelled as a mathematical `Int` constrained to the 32-bit
  two's-complement range; the codec serializes its 32-bit pattern.
* `frc::Transform3d` is an external collaborator: a rigid transform with
  equality and a canonical fixed-width encoding (translation x,y,z plus
  quaternion w,x,y,z, each a double).  Its default constructor is the
  identity transform.
* A `Packet` holds a growable byte buffer; decoding is a state-passing
  reader over the remaining bytes, failing with `none` on underrun.
-/

namespace Photon

/-! ## Byte-level primitives (the buffer collaborator) -/

/-- Serialize the low `n` bytes of a bit pattern, least significant byte
first. -/
def natToBytes : Nat → Nat → List Nat
  | 0, _ => []
  | n + 1, v => v % 256 :: natToBytes n (v / 256)

/-- Reassemble a bit pattern from bytes, least significant byte first. -/
def bytesToNat : List Nat → Nat
  | [] => 0
  | b :: bs => b % 256 + 256 * bytesToNat bs

@[simp] theorem natToBytes_length (n v : Nat) : (natToBytes n v).length = n := by
  induction n generalizing v with
  | zero => rfl
  | succ n ih => simp [natToBytes, ih]

theorem bytesToNat_natToBytes {n v : Nat} (h : v < 256 ^ n) :
    bytesToNat (natToBytes n v) = v := by
  induction n generalizing v with
  | zero =>
    simp only [pow_zero, Nat.lt_one_iff] at h
    simp [h, natToBytes, bytesToNat]
  | succ n ih =>
    have hdiv : v / 256 < 256 ^ n := by
      rw [Nat.div_lt_iff_lt_mul (by norm_num : 0 < 256)]
      calc v < 256 ^ (n + 1) := h
        _ = 256 ^ n * 256 := by rw [pow_succ]
    simp only [natToBytes, bytesToNat, ih hdiv]
    omega

/-! ## The reader (decode side of the buffer collaborator) -/

/-- A reader over the not-yet-consumed bytes of a packet: returns the
decoded value and the remaining bytes, or `none` on underrun. -/
def ReadM (α : Type) : Type := List Nat → Option (α × List Nat)

/-- Reader that consumes nothing. -/
def rpure {α : Type} (a : α) : ReadM α := fun bs => some (a, bs)

/-- Sequencing of readers; failure propagates. -/
def rbind {α β : Type} (m : ReadM α) (f : α → ReadM β) : ReadM β := fun bs =>
  match m bs with
  | none => none
  | some (a, rest) => f a rest

/-- Read `n` raw bytes as a bit pattern (LSB first); fails when fewer than
`n` bytes remain. -/
def readWord (n : Nat) : ReadM Nat := fun bs =>
  if n ≤ bs.length then some (bytesToNat (bs.take n), bs.drop n) else none

theorem rbind_some {α β : Type} {m : ReadM α} {f : α → ReadM β} {bs : List Nat}
    {a : α} {rest : List Nat} (h : m bs = some (a, rest)) :
    rbind m f bs = f a rest := by
  simp [rbind, h]

theorem readWord_append {n v : Nat} (rest : List Nat) (h : v < 256 ^ n) :
    readWord n (natToBytes n v ++ rest) = some (v, rest) := by
  have hlen : (natToBytes n v).length = n := natToBytes_length n v
  unfold readWord
  rw [if_pos (by simp [hlen])]
  rw [List.take_left' hlen, List.drop_left' hlen, bytesToNat_natToBytes h]

/-! ## Bit patterns of the floating-point values named by the spec -/

/-- Bit pattern of the IEEE double 1.0. -/
def doubleBitsOne : Nat := 4607182418800017408

/-- Bit pattern of the IEEE double -1.0. -/
def doubleBitsNegOne : Nat := 13830554455654793216

/-- Bit pattern of the IEEE single-precision float -1.0f. -/
def floatBitsNegOne : Nat := 3212836864

/-! ## The rigid-transform collaborator -/

/-- External collaborator `frc::Transform3d`: a rigid transform held as the
bit patterns of its translation (x, y, z) and rotation quaternion
(w, x, y, z) doubles.  Treated as opaque apart from equality, its default
(identity) value, and its canonical fixed-width packet encoding. -/
structure Transform3d where
  tx : Nat
  ty : Nat
  tz : Nat
  qw : Nat
  qx : Nat
  qy : Nat
  qz : Nat
deriving DecidableEq

/-- Default constructor `frc::Transform3d()`: the identity transform (zero translation, unit
quaternion). -/
def Transform3d.identityT : Transform3d :=
  ⟨0, 0, 0, doubleBitsOne, 0, 0, 0⟩

/-- The transform's bit patterns all fit in a double. -/
def Transform3d.Wf (t : Transform3d) : Prop :=
  t.tx < 256 ^ 8 ∧ t.ty < 256 ^ 8 ∧ t.tz < 256 ^ 8 ∧ t.qw < 256 ^ 8 ∧
    t.qx < 256 ^ 8 ∧ t.qy < 256 ^ 8 ∧ t.qz < 256 ^ 8

instance (t : Transform3d) : Decidable t.Wf := by
  unfold Transform3d.Wf; infer_instance

/-! ## The tracked-target data model -/

/-- Class `photon::PhotonTrackedTarget`, the value object of the header: one
tracked target's scalar and geometric attributes.  Doubles and floats are
bit patterns, `int` fields are mathematical integers in the 32-bit range,
corner lists are lists of (x, y) double-bit-pattern pairs. -/
structure PhotonTrackedTarget where
  yaw : Nat
  pitch : Nat
  area : Nat
  skew : Nat
  fiducialId : Int
  objDetectId : Int
  objDetectConf : Nat
  bestCameraToTarget : Transform3d
  altCameraToTarget : Transform3d
  poseAmbiguity : Nat
  minAreaRectCorners : List (Nat × Nat)
  detectedCorners : List (Nat × Nat)
deriving DecidableEq

namespace PhotonTrackedTarget

/-- A pair of doubles is representable when both bit patterns fit. -/
def PairWf (p : Nat × Nat) : Prop := p.1 < 256 ^ 8 ∧ p.2 < 256 ^ 8

instance (p : Nat × Nat) : Decidable (PairWf p) := by
  unfold PairWf; infer_instance

/-- A target is representable when every scalar field fits its wire width,
both transforms are well-formed, `minAreaRectCorners` has its invariant 4
entries, and the `detectedCorners` count fits the unsigned length prefix. -/
def Representable (t : PhotonTrackedTarget) : Prop :=
  t.yaw < 256 ^ 8 ∧ t.pitch < 256 ^ 8 ∧ t.area < 256 ^ 8 ∧ t.skew < 256 ^ 8 ∧
    -(2 ^ 31) ≤ t.fiducialId ∧ t.fiducialId < 2 ^ 31 ∧
    -(2 ^ 31) ≤ t.objDetectId ∧ t.objDetectId < 2 ^ 31 ∧
    t.objDetectConf < 256 ^ 4 ∧
    t.bestCameraToTarget.Wf ∧ t.altCameraToTarget.Wf ∧
    t.poseAmbiguity < 256 ^ 8 ∧
    (∀ p ∈ t.minAreaRectCorners, PairWf p) ∧
    t.minAreaRectCorners.length = 4 ∧
    (∀ p ∈ t.detectedCorners, PairWf p) ∧
    t.detectedCorners.length < 256 ^ 4

instance (t : PhotonTrackedTarget) : Decidable t.Representable := by
  unfold Representable; infer_instance

/-- Modelled from the spec: the 12-argument producer constructor
`PhotonTrackedTarget(yaw, pitch, area, skew, fiducialID, objDetectCassId,
objDetectConf, pose, alternatePose, ambiguity, minAreaRectCorners,
detectedCorners)`, whose body is only declared in the header — per §4.1 it
takes all fields as explicit arguments and derives or defaults none. -/
def mk12 (yaw pitch area skew : Nat) (fiducialID objDetectCassId : Int)
    (objDetectConf : Nat) (pose alternatePose : Transform3d) (ambiguity : Nat)
    (minAreaRectCorners detectedCorners : List (Nat × Nat)) :
    PhotonTrackedTarget :=
  ⟨yaw, pitch, area, skew, fiducialID, objDetectCassId, objDetectConf,
    pose, alternatePose, ambiguity, minAreaRectCorners, detectedCorners⟩

/-- Default constructor `PhotonTrackedTarget() = default`: the members `yaw`, `pitch`, `area`,
`skew` have default member initializers `= 0`, the transforms and the two
corner containers default-construct to identity and empty, but the members
`fiducialId`, `objDetectId`, `objDetectConf`, `poseAmbiguity` carry no
initializer, so default construction leaves them indeterminate; the model
takes the four indeterminate values as parameters. -/
def defaultCtor (fid oid : Int) (conf amb : Nat) : PhotonTrackedTarget :=
  ⟨0, 0, 0, 0, fid, oid, conf, Transform3d.identityT, Transform3d.identityT,
    amb, [], []⟩

end PhotonTrackedTarget

/-! ## The packet (encode side of the buffer collaborator) -/

/-- The externally supplied growable output buffer (`Packet`), reduced to
the byte sequence written so far. -/
structure Packet where
  data : List Nat
deriving DecidableEq

namespace Packet

/-- Append raw bytes to the packet. -/
def writeBytes (p : Packet) (bs : List Nat) : Packet := ⟨p.data ++ bs⟩

/-- Primitive `writeFixedWidth` for a double: append its 8-byte bit pattern. -/
def writeF64 (p : Packet) (v : Nat) : Packet := p.writeBytes (natToBytes 8 v)

/-- Primitive `writeFixedWidth` for a single-precision float: append its 4-byte bit
pattern. -/
def writeF32 (p : Packet) (v : Nat) : Packet := p.writeBytes (natToBytes 4 v)

/-- Primitive `writeFixedWidth` for a signed 32-bit integer: append the 4 bytes of its
two's-complement pattern. -/
def writeI32 (p : Packet) (v : Int) : Packet :=
  p.writeBytes (natToBytes 4 (v % 4294967296).toNat)

/-- Primitive `writeFixedWidth` for the unsigned 32-bit length prefix. -/
def writeU32 (p : Packet) (v : Nat) : Packet := p.writeBytes (natToBytes 4 v)

/-- Append one (x, y) pair of doubles. -/
def writePair (p : Packet) (c : Nat × Nat) : Packet :=
  (p.writeF64 c.1).writeF64 c.2

/-- The rigid-transform collaborator's own canonical encoding: translation
x, y, z then quaternion w, x, y, z, each a double. -/
def writeTransform (p : Packet) (t : Transform3d) : Packet :=
  ((((((p.writeF64 t.tx).writeF64 t.ty).writeF64 t.tz).writeF64
    t.qw).writeF64 t.qx).writeF64 t.qy).writeF64 t.qz

end Packet

/-- Modelled from the spec: `operator<<(Packet&, const PhotonTrackedTarget&)`,
whose body is only declared in the header — §4.2's fixed encoding order:
yaw, pitch, area, skew (doubles); fiducialId, objDetectClassId (signed
32-bit); objDetectConfidence (float); best and alternate camera-to-target
transforms; poseAmbiguity (double); the 4 minAreaRectCorners pairs with no
length prefix; then the detectedCorners pair count (unsigned 32-bit)
followed by that many pairs in order. -/
def writeTarget (p : Packet) (t : PhotonTrackedTarget) : Packet :=
  let p1 := ((((p.writeF64 t.yaw).writeF64 t.pitch).writeF64 t.area).writeF64
    t.skew).writeI32 t.fiducialId
  let p2 := ((((p1.writeI32 t.objDetectId).writeF32
    t.objDetectConf).writeTransform t.bestCameraToTarget).writeTransform
    t.altCameraToTarget).writeF64 t.poseAmbiguity
  let p3 := t.minAreaRectCorners.foldl Packet.writePair p2
  let p4 := p3.writeU32 t.detectedCorners.length
  t.detectedCorners.foldl Packet.writePair p4

/-- The byte encoding of one target: what `operator<<` appends to an empty
packet. -/
def encodeTarget (t : PhotonTrackedTarget) : List Nat :=
  (writeTarget ⟨[]⟩ t).data

/-! ## Flat forms of the encoders -/

/-- Bytes of one encoded (x, y) pair. -/
def pairBytes (c : Nat × Nat) : List Nat := natToBytes 8 c.1 ++ natToBytes 8 c.2

/-- Bytes of one encoded transform. -/
def transformBytes (t : Transform3d) : List Nat :=
  natToBytes 8 t.tx ++ natToBytes 8 t.ty ++ natToBytes 8 t.tz ++
    natToBytes 8 t.qw ++ natToBytes 8 t.qx ++ natToBytes 8 t.qy ++
    natToBytes 8 t.qz

/-- Bytes of the two's-complement pattern of a signed 32-bit integer. -/
def i32Bytes (v : Int) : List Nat := natToBytes 4 (v % 4294967296).toNat

/-- Bytes of a list of encoded pairs. -/
def pairListBytes (l : List (Nat × Nat)) : List Nat := (l.map pairBytes).join

/-- Flat concatenation form of the target encoding, segment by segment in
the protocol order. -/
def targetBytes (t : PhotonTrackedTarget) : List Nat :=
  natToBytes 8 t.yaw ++ natToBytes 8 t.pitch ++ natToBytes 8 t.area ++
    natToBytes 8 t.skew ++ i32Bytes t.fiducialId ++ i32Bytes t.objDetectId ++
    natToBytes 4 t.objDetectConf ++ transformBytes t.bestCameraToTarget ++
    transformBytes t.altCameraToTarget ++ natToBytes 8 t.poseAmbiguity ++
    pairListBytes t.minAreaRectCorners ++
    natToBytes 4 t.detectedCorners.length ++ pairListBytes t.detectedCorners

theorem foldl_writePair (l : List (Nat × Nat)) (p : Packet) :
    l.foldl Packet.writePair p = ⟨p.data ++ pairListBytes l⟩ := by
  induction l generalizing p with
  | nil => simp [pairListBytes]
  | cons c l ih =>
    simp only [List.foldl_cons, ih, pairListBytes, List.map_cons, List.join,
      Packet.writePair, Packet.writeF64, Packet.writeBytes, pairBytes]
    simp [List.append_assoc]

/-- Appending operator: `operator<<` appends exactly the flat segment concatenation. -/
theorem writeTarget_eq (p : Packet) (t : PhotonTrackedTarget) :
    writeTarget p t = ⟨p.data ++ targetBytes t⟩ := by
  simp only [writeTarget, Packet.writeF64, Packet.writeF32, Packet.writeI32,
    Packet.writeU32, Packet.writeTransform, Packet.writeBytes, foldl_writePair,
    targetBytes, transformBytes, i32Bytes]
  simp [List.append_assoc]

theorem encodeTarget_eq (t : PhotonTrackedTarget) :
    encodeTarget t = targetBytes t := by
  simp [encodeTarget, writeTarget_eq]

/-! ## Decoding -/

/-- Read one double's bit pattern. -/
def readF64 : ReadM Nat := readWord 8

/-- Read one single-precision float's bit pattern. -/
def readF32 : ReadM Nat := readWord 4

/-- Interpret 4 bytes' worth of bit pattern as a two's-complement signed
32-bit integer. -/
def i32OfBits (n : Nat) : Int :=
  if n < 2147483648 then (n : Int) else (n : Int) - 4294967296

/-- Read one signed 32-bit integer. -/
def readI32 : ReadM Int := rbind (readWord 4) fun n => rpure (i32OfBits n)

/-- Read one (x, y) pair of doubles. -/
def readPair : ReadM (Nat × Nat) :=
  rbind readF64 fun x => rbind readF64 fun y => rpure (x, y)

/-- The rigid-transform collaborator's decode: translation x, y, z then
quaternion w, x, y, z. -/
def readTransform : ReadM Transform3d :=
  rbind readF64 fun tx =>
  rbind readF64 fun ty =>
  rbind readF64 fun tz =>
  rbind readF64 fun qw =>
  rbind readF64 fun qx =>
  rbind readF64 fun qy =>
  rbind readF64 fun qz =>
  rpure ⟨tx, ty, tz, qw, qx, qy, qz⟩

/-- Read `n` (x, y) pairs. -/
def readPairs : Nat → ReadM (List (Nat × Nat))
  | 0 => rpure []
  | n + 1 =>
    rbind readPair fun c => rbind (readPairs n) fun cs => rpure (c :: cs)

/-- Modelled from the spec (first seven protocol segments of
`operator>>(Packet&, PhotonTrackedTarget&)`, whose body is only declared in
the header): the fixed-layout part of a target — the four angle/area
doubles, two signed ids, the float confidence, the two transforms, the
ambiguity double and the prefix-free 4 minAreaRectCorners pairs — leaving
`detectedCorners` empty for the caller to fill. -/
def decodeMeta : ReadM PhotonTrackedTarget :=
  rbind readF64 fun yaw =>
  rbind readF64 fun pitch =>
  rbind readF64 fun area =>
  rbind readF64 fun skew =>
  rbind readI32 fun fid =>
  rbind readI32 fun oid =>
  rbind readF32 fun conf =>
  rbind readTransform fun best =>
  rbind readTransform fun alt =>
  rbind readF64 fun amb =>
  rbind (readPairs 4) fun mar =>
  rpure ⟨yaw, pitch, area, skew, fid, oid, conf, best, alt, amb, mar, []⟩

/-- Modelled from the spec: `operator>>(Packet&, PhotonTrackedTarget&)` in
full — the fixed-layout segments, then the unsigned 32-bit detectedCorners
pair count, then that many pairs. -/
def decodeTarget : ReadM PhotonTrackedTarget :=
  rbind decodeMeta fun m =>
  rbind (readWord 4) fun c =>
  rbind (readPairs c) fun dc =>
  rpure { m with detectedCorners := dc }

/-! ## Component round-trip lemmas -/

theorem readI32_append {v : Int} (rest : List Nat)
    (h1 : -(2 ^ 31) ≤ v) (h2 : v < 2 ^ 31) :
    readI32 (i32Bytes v ++ rest) = some (v, rest) := by
  have hb : (v % 4294967296).toNat < 256 ^ 4 := by
    have := Int.emod_nonneg v (by norm_num : (4294967296 : Int) ≠ 0)
    have := Int.emod_lt_of_pos v (by norm_num : (0 : Int) < 4294967296)
    norm_num
    omega
  unfold readI32 i32Bytes
  rw [rbind_some (readWord_append rest hb)]
  unfold rpure i32OfBits
  have h31 : (2147483648 : Int) = 2 ^ 31 := by norm_num
  rcases le_or_lt 0 v with hv | hv
  · have hmod : v % 4294967296 = v := Int.emod_eq_of_lt hv (by omega)
    rw [hmod]
    rw [if_pos (by omega)]
    congr 1
    congr 1
    omega
  · have hmod : v % 4294967296 = v + 4294967296 := by omega
    rw [hmod]
    rw [if_neg (by omega)]
    congr 1
    congr 1
    omega

theorem readPair_append {c : Nat × Nat} (rest : List Nat)
    (h : PhotonTrackedTarget.PairWf c) :
    readPair (pairBytes c ++ rest) = some (c, rest) := by
  obtain ⟨h1, h2⟩ := h
  unfold readPair pairBytes readF64
  rw [List.append_assoc]
  rw [rbind_some (readWord_append _ h1)]
  rw [rbind_some (readWord_append _ h2)]
  rfl

theorem readTransform_append {t : Transform3d} (rest : List Nat)
    (h : t.Wf) : readTransform (transformBytes t ++ rest) = some (t, rest) := by
  obtain ⟨h1, h2, h3, h4, h5, h6, h7⟩ := h
  unfold readTransform transformBytes readF64
  simp only [List.append_assoc]
  rw [rbind_some (readWord_append _ h1)]
  rw [rbind_some (readWord_append _ h2)]
  rw [rbind_some (readWord_append _ h3)]
  rw [rbind_some (readWord_append _ h4)]
  rw [rbind_some (readWord_append _ h5)]
  rw [rbind_some (readWord_append _ h6)]
  rw [rbind_some (readWord_append _ h7)]
  rfl

theorem readPairs_append {l : List (Nat × Nat)} (rest : List Nat)
    (h : ∀ p ∈ l, PhotonTrackedTarget.PairWf p) :
    readPairs l.length (pairListBytes l ++ rest) = some (l, rest) := by
  induction l generalizing rest with
  | nil => simp [pairListBytes, readPairs, rpure]
  | cons c l ih =>
    have hstep : pairListBytes (c :: l) = pairBytes c ++ pairListBytes l := by
      simp [pairListBytes]
    simp only [List.length_cons, readPairs, hstep]
    rw [List.append_assoc]
    rw [rbind_some (readPair_append _ (h c (by simp)))]
    rw [rbind_some (ih rest (fun p hp => h p (by simp [hp])))]
    rfl

/-! ## Full round trip -/

/-- The fixed-layout front of the encoding: segments 1–7 of the protocol
(everything before the detectedCorners length prefix). -/
def metaBytes (t : PhotonTrackedTarget) : List Nat :=
  natToBytes 8 t.yaw ++ natToBytes 8 t.pitch ++ natToBytes 8 t.area ++
    natToBytes 8 t.skew ++ i32Bytes t.fiducialId ++ i32Bytes t.objDetectId ++
    natToBytes 4 t.objDetectConf ++ transformBytes t.bestCameraToTarget ++
    transformBytes t.altCameraToTarget ++ natToBytes 8 t.poseAmbiguity ++
    pairListBytes t.minAreaRectCorners

theorem targetBytes_split (t : PhotonTrackedTarget) :
    targetBytes t = metaBytes t ++ (natToBytes 4 t.detectedCorners.length ++
      pairListBytes t.detectedCorners) := by
  simp [targetBytes, metaBytes, List.append_assoc]

theorem decodeMeta_append (t : PhotonTrackedTarget) (rest : List Nat)
    (h : t.Representable) :
    decodeMeta (metaBytes t ++ rest) =
      some ({ t with detectedCorners := [] }, rest) := by
  obtain ⟨h1, h2, h3, h4, h5, h6, h7, h8, h9, h10, h11, h12, h13, h14, h15,
    h16⟩ := h
  unfold decodeMeta metaBytes readF64 readF32
  simp only [List.append_assoc]
  rw [rbind_some (readWord_append _ h1)]
  rw [rbind_some (readWord_append _ h2)]
  rw [rbind_some (readWord_append _ h3)]
  rw [rbind_some (readWord_append _ h4)]
  rw [rbind_some (readI32_append _ h5 h6)]
  rw [rbind_some (readI32_append _ h7 h8)]
  rw [rbind_some (readWord_append _ h9)]
  rw [rbind_some (readTransform_append _ h10)]
  rw [rbind_some (readTransform_append _ h11)]
  rw [rbind_some (readWord_append _ h12)]
  have hmar := readPairs_append rest h13
  rw [h14] at hmar
  rw [rbind_some hmar]
  rfl

theorem decodeTarget_append (t : PhotonTrackedTarget) (rest : List Nat)
    (h : t.Representable) :
    decodeTarget (targetBytes t ++ rest) = some (t, rest) := by
  have hrep := h
  obtain ⟨h1, h2, h3, h4, h5, h6, h7, h8, h9, h10, h11, h12, h13, h14, h15,
    h16⟩ := h
  unfold decodeTarget
  rw [targetBytes_split, List.append_assoc]
  rw [rbind_some (decodeMeta_append t _ hrep)]
  rw [List.append_assoc]
  rw [rbind_some (readWord_append _ h16)]
  rw [rbind_some (readPairs_append rest h15)]
  cases t
  rfl

/-- Decoding the exact encoding consumes the whole buffer and rebuilds the
target. -/
theorem decodeTarget_encodeTarget (t : PhotonTrackedTarget)
    (h : t.Representable) : decodeTarget (encodeTarget t) = some (t, []) := by
  have := decodeTarget_append t [] h
  rwa [List.append_nil, ← encodeTarget_eq] at this

/-! ## Underrun behaviour

`Stable m` says a reader that succeeds on a buffer consumes a fixed number
of leading bytes determined by their content: on any truncation of that
buffer it either fails (truncated inside the consumed region) or succeeds
with the same value. -/

/-- A successful reader run pins down how the same reader behaves on every
truncation of its input. -/
def Stable {α : Type} (m : ReadM α) : Prop :=
  ∀ bs a rest, m bs = some (a, rest) →
    ∃ n, n ≤ bs.length ∧ rest = bs.drop n ∧
      ∀ k, m (bs.take k) =
        if n ≤ k then some (a, (bs.take k).drop n) else none

theorem stable_rpure {α : Type} (a : α) : Stable (rpure a) := by
  intro bs b rest h
  obtain ⟨h1, h2⟩ : a = b ∧ bs = rest := by simpa [rpure] using h
  subst h1
  subst h2
  exact ⟨0, Nat.zero_le _, by simp, fun k => by simp [rpure]⟩

theorem stable_readWord (w : Nat) : Stable (readWord w) := by
  intro bs a rest h
  unfold readWord at h
  by_cases hw : w ≤ bs.length
  · rw [if_pos hw] at h
    obtain ⟨rfl, rfl⟩ : bytesToNat (bs.take w) = a ∧ bs.drop w = rest := by
      simpa using h
    refine ⟨w, hw, rfl, ?_⟩
    intro k
    by_cases hk : w ≤ k
    · have hlen : w ≤ (bs.take k).length := by
        simp only [List.length_take]
        omega
      rw [readWord, if_pos hlen]
      rw [List.take_take, min_eq_left hk, if_pos hk]
    · have hlen : ¬ w ≤ (bs.take k).length := by
        simp only [List.length_take]
        omega
      rw [readWord, if_neg hlen, if_neg hk]
  · rw [if_neg hw] at h
    exact absurd h (by simp)

theorem stable_rbind {α β : Type} {m : ReadM α} {f : α → ReadM β}
    (hm : Stable m) (hf : ∀ a, Stable (f a)) : Stable (rbind m f) := by
  intro bs b rest h
  unfold rbind at h
  rcases hmb : m bs with _ | ⟨a, mid⟩ <;> rw [hmb] at h
  · exact absurd h (by simp)
  · obtain ⟨n1, hn1, hmid, hk1⟩ := hm bs a mid hmb
    obtain ⟨n2, hn2, hrest, hk2⟩ := hf a mid b rest h
    subst hmid
    have hlen : (List.drop n1 bs).length = bs.length - n1 := by
      simp
    refine ⟨n1 + n2, by omega, ?_, ?_⟩
    · rw [hrest, List.drop_drop]
    · intro k
      by_cases hkn1 : n1 ≤ k
      · have hx : n1 + (k - n1) = k := by omega
        have htk : (bs.drop n1).take (k - n1) = (bs.take k).drop n1 := by
          rw [List.take_drop, hx]
        have hmk : m (bs.take k) = some (a, (bs.drop n1).take (k - n1)) := by
          rw [hk1 k, if_pos hkn1, htk]
        rw [rbind_some hmk, hk2 (k - n1)]
        by_cases hkn12 : n1 + n2 ≤ k
        · rw [if_pos (by omega : n2 ≤ k - n1), if_pos hkn12]
          rw [htk, List.drop_drop]
        · rw [if_neg (by omega : ¬ n2 ≤ k - n1), if_neg hkn12]
      · have hmk : m (bs.take k) = none := by
          rw [hk1 k, if_neg hkn1]
        unfold rbind
        rw [hmk, if_neg (by omega : ¬ n1 + n2 ≤ k)]

theorem stable_readF64 : Stable readF64 := stable_readWord 8

theorem stable_readI32 : Stable readI32 :=
  stable_rbind (stable_readWord 4) fun n => stable_rpure (i32OfBits n)

theorem stable_readPair : Stable readPair :=
  stable_rbind stable_readF64 fun x =>
    stable_rbind stable_readF64 fun y => stable_rpure (x, y)

theorem stable_readTransform : Stable readTransform := by
  unfold readTransform
  refine stable_rbind stable_readF64 fun tx => ?_
  refine stable_rbind stable_readF64 fun ty => ?_
  refine stable_rbind stable_readF64 fun tz => ?_
  refine stable_rbind stable_readF64 fun qw => ?_
  refine stable_rbind stable_readF64 fun qx => ?_
  refine stable_rbind stable_readF64 fun qy => ?_
  exact stable_rbind stable_readF64 fun qz => stable_rpure _

theorem stable_readPairs (n : Nat) : Stable (readPairs n) := by
  induction n with
  | zero => exact stable_rpure []
  | succ n ih =>
    exact stable_rbind stable_readPair fun c =>
      stable_rbind ih fun cs => stable_rpure (c :: cs)

theorem stable_decodeMeta : Stable decodeMeta := by
  unfold decodeMeta
  refine stable_rbind stable_readF64 fun yaw => ?_
  refine stable_rbind stable_readF64 fun pitch => ?_
  refine stable_rbind stable_readF64 fun area => ?_
  refine stable_rbind stable_readF64 fun skew => ?_
  refine stable_rbind stable_readI32 fun fid => ?_
  refine stable_rbind stable_readI32 fun oid => ?_
  refine stable_rbind (stable_readWord 4) fun conf => ?_
  refine stable_rbind stable_readTransform fun best => ?_
  refine stable_rbind stable_readTransform fun alt => ?_
  refine stable_rbind stable_readF64 fun amb => ?_
  exact stable_rbind (stable_readPairs 4) fun mar => stable_rpure _

theorem stable_decodeTarget : Stable decodeTarget := by
  unfold decodeTarget
  refine stable_rbind stable_decodeMeta fun m => ?_
  refine stable_rbind (stable_readWord 4) fun c => ?_
  exact stable_rbind (stable_readPairs c) fun dc => stable_rpure _

/-- Decoding any strict truncation of a valid encoding fails. -/
theorem decodeTarget_truncation (t : PhotonTrackedTarget)
    (h : t.Representable) (k : Nat) (hk : k < (encodeTarget t).length) :
    decodeTarget ((encodeTarget t).take k) = none := by
  obtain ⟨n, hn, hrest, hall⟩ :=
    stable_decodeTarget (encodeTarget t) t [] (decodeTarget_encodeTarget t h)
  have hnlen : n = (encodeTarget t).length := by
    have := congrArg List.length hrest
    simp at this
    omega
  rw [hall k, if_neg (by omega)]

/-- Reading `c` pairs from fewer than `16 * c` bytes fails. -/
theorem readPairs_short (c : Nat) (bs : List Nat) (h : bs.length < 16 * c) :
    readPairs c bs = none := by
  induction c generalizing bs with
  | zero => omega
  | succ c ih =>
    by_cases h8 : 8 ≤ bs.length
    · have hx : readWord 8 bs = some (bytesToNat (bs.take 8), bs.drop 8) := by
        rw [readWord, if_pos h8]
      by_cases h16 : 8 ≤ (bs.drop 8).length
      · have hy : readWord 8 (bs.drop 8) =
            some (bytesToNat ((bs.drop 8).take 8), (bs.drop 8).drop 8) := by
          rw [readWord, if_pos h16]
        have hpair : readPair bs =
            some ((bytesToNat (bs.take 8), bytesToNat ((bs.drop 8).take 8)),
              (bs.drop 8).drop 8) := by
          unfold readPair readF64
          rw [rbind_some hx, rbind_some hy]
          rfl
        have hrest : readPairs c ((bs.drop 8).drop 8) = none := by
          apply ih
          simp only [List.length_drop] at h16 ⊢
          omega
        unfold readPairs
        rw [rbind_some hpair]
        unfold rbind
        rw [hrest]
      · have hy : readWord 8 (bs.drop 8) = none := by
          rw [readWord, if_neg h16]
        have hpair : readPair bs = none := by
          unfold readPair readF64
          rw [rbind_some hx]
          unfold rbind
          rw [hy]
        unfold readPairs rbind
        rw [hpair]
    · have hx : readWord 8 bs = none := by
        rw [readWord, if_neg h8]
      have hpair : readPair bs = none := by
        unfold readPair readF64 rbind
        rw [hx]
      unfold readPairs rbind
      rw [hpair]

/-- A declared detectedCorners count whose pairs would read past the end of
the buffer makes the whole decode fail: after the fixed-layout front of a
(corner-free) valid target, a length prefix of `c` followed by fewer than
`16 * c` bytes is rejected. -/
theorem decodeTarget_count_overrun (t : PhotonTrackedTarget)
    (h : t.Representable) (c : Nat) (hc : c < 256 ^ 4) (extra : List Nat)
    (hshort : extra.length < 16 * c) :
    decodeTarget (metaBytes t ++ natToBytes 4 c ++ extra) = none := by
  unfold decodeTarget
  rw [List.append_assoc]
  rw [rbind_some (decodeMeta_append t _ h)]
  rw [rbind_some (readWord_append _ hc)]
  unfold rbind
  rw [readPairs_short c extra hshort]

/-! ## Structural equality (`operator==`) -/

namespace PhotonTrackedTarget

/-- Modelled from the spec: `operator==(const PhotonTrackedTarget&)`, whose
body is only declared in the header — §3's structural equality: pairwise
equality of every field, floating-point fields compared by exact bit
pattern with no tolerance. -/
def targetEq (a b : PhotonTrackedTarget) : Bool :=
  decide (a.yaw = b.yaw) && decide (a.pitch = b.pitch) &&
    decide (a.area = b.area) && decide (a.skew = b.skew) &&
    decide (a.fiducialId = b.fiducialId) &&
    decide (a.objDetectId = b.objDetectId) &&
    decide (a.objDetectConf = b.objDetectConf) &&
    decide (a.bestCameraToTarget = b.bestCameraToTarget) &&
    decide (a.altCameraToTarget = b.altCameraToTarget) &&
    decide (a.poseAmbiguity = b.poseAmbiguity) &&
    decide (a.minAreaRectCorners = b.minAreaRectCorners) &&
    decide (a.detectedCorners = b.detectedCorners)

theorem targetEq_iff_fields (a b : PhotonTrackedTarget) :
    targetEq a b = true ↔
      a.yaw = b.yaw ∧ a.pitch = b.pitch ∧ a.area = b.area ∧ a.skew = b.skew ∧
        a.fiducialId = b.fiducialId ∧ a.objDetectId = b.objDetectId ∧
        a.objDetectConf = b.objDetectConf ∧
        a.bestCameraToTarget = b.bestCameraToTarget ∧
        a.altCameraToTarget = b.altCameraToTarget ∧
        a.poseAmbiguity = b.poseAmbiguity ∧
        a.minAreaRectCorners = b.minAreaRectCorners ∧
        a.detectedCorners = b.detectedCorners := by
  simp [targetEq, Bool.and_eq_true, and_assoc]

theorem targetEq_iff_eq (a b : PhotonTrackedTarget) :
    targetEq a b = true ↔ a = b := by
  rw [targetEq_iff_fields]
  cases a
  cases b
  simp_all [PhotonTrackedTarget.mk.injEq, and_assoc]

/-! ## Accessors

A `const` accessor is modelled as a function from the object to the value
it returns, the object as left after the call, and the list of diagnostics
it emits. -/

/-- The diagnostic text of `FRC_ReportError(frc::warn::Warning, ...)` in
`GetBestCameraToTarget`. -/
def warn3dMsg : String := "3d mode is not enabled"

/-- Accessor `GetYaw()`. -/
def GetYaw (t : PhotonTrackedTarget) : Nat × PhotonTrackedTarget × List String :=
  (t.yaw, t, [])

/-- Accessor `GetPitch()`. -/
def GetPitch (t : PhotonTrackedTarget) :
    Nat × PhotonTrackedTarget × List String :=
  (t.pitch, t, [])

/-- Accessor `GetArea()`. -/
def GetArea (t : PhotonTrackedTarget) :
    Nat × PhotonTrackedTarget × List String :=
  (t.area, t, [])

/-- Accessor `GetSkew()`. -/
def GetSkew (t : PhotonTrackedTarget) :
    Nat × PhotonTrackedTarget × List String :=
  (t.skew, t, [])

/-- Accessor `GetFiducialId()`: returns the `fiducialId` member. -/
def GetFiducialId (t : PhotonTrackedTarget) :
    Int × PhotonTrackedTarget × List String :=
  (t.fiducialId, t, [])

/-- Accessor `GetDetectedObjectClassID()`: returns the `objDetectId` member (its
documentation comment in the header says "Fiducial ID", but the body
returns `objDetectId`). -/
def GetDetectedObjectClassID (t : PhotonTrackedTarget) :
    Int × PhotonTrackedTarget × List String :=
  (t.objDetectId, t, [])

/-- Accessor `GetDetectedObjectConfidence()`. -/
def GetDetectedObjectConfidence (t : PhotonTrackedTarget) :
    Nat × PhotonTrackedTarget × List String :=
  (t.objDetectConf, t, [])

/-- Accessor `GetMinAreaRectCorners()`. -/
def GetMinAreaRectCorners (t : PhotonTrackedTarget) :
    List (Nat × Nat) × PhotonTrackedTarget × List String :=
  (t.minAreaRectCorners, t, [])

/-- Accessor `GetDetectedCorners()`. -/
def GetDetectedCorners (t : PhotonTrackedTarget) :
    List (Nat × Nat) × PhotonTrackedTarget × List String :=
  (t.detectedCorners, t, [])

/-- Accessor `GetPoseAmbiguity()`. -/
def GetPoseAmbiguity (t : PhotonTrackedTarget) :
    Nat × PhotonTrackedTarget × List String :=
  (t.poseAmbiguity, t, [])

/-- Accessor `GetBestCameraToTarget()`: warns once when the stored transform equals
the default-constructed `frc::Transform3d()`, then returns the stored
transform. -/
def GetBestCameraToTarget (t : PhotonTrackedTarget) :
    Transform3d × PhotonTrackedTarget × List String :=
  (t.bestCameraToTarget, t,
    if t.bestCameraToTarget = Transform3d.identityT then [warn3dMsg] else [])

/-- Accessor `GetAlternateCameraToTarget()`. -/
def GetAlternateCameraToTarget (t : PhotonTrackedTarget) :
    Transform3d × PhotonTrackedTarget × List String :=
  (t.altCameraToTarget, t, [])

end PhotonTrackedTarget

/-! ## Inversion of the decoder -/

theorem rbind_eq_some {α β : Type} {m : ReadM α} {f : α → ReadM β}
    {bs : List Nat} {r : β × List Nat} :
    rbind m f bs = some r ↔
      ∃ a mid, m bs = some (a, mid) ∧ f a mid = some r := by
  unfold rbind
  rcases h : m bs with _ | ⟨a, mid⟩ <;> simp
  constructor
  · intro hf
    exact ⟨a, mid, ⟨rfl, rfl⟩, hf⟩
  · rintro ⟨a1, mid1, ⟨rfl, rfl⟩, hf⟩
    exact hf

theorem readPairs_length {n : Nat} :
    ∀ {bs : List Nat} {l : List (Nat × Nat)} {rest : List Nat},
      readPairs n bs = some (l, rest) → l.length = n := by
  induction n with
  | zero =>
    intro bs l rest h
    obtain ⟨h1, h2⟩ : [] = l ∧ bs = rest := by
      simpa [readPairs, rpure] using h
    simp [← h1]
  | succ n ih =>
    intro bs l rest h
    unfold readPairs at h
    rw [rbind_eq_some] at h
    obtain ⟨c, m1, _, h⟩ := h
    rw [rbind_eq_some] at h
    obtain ⟨cs, m2, hcs, h⟩ := h
    obtain ⟨h1, h2⟩ : c :: cs = l ∧ m2 = rest := by
      simpa [rpure] using h
    rw [← h1]
    simp [ih hcs]

theorem decodeMeta_minArea {bs : List Nat} {m : PhotonTrackedTarget}
    {rest : List Nat} (h : decodeMeta bs = some (m, rest)) :
    m.minAreaRectCorners.length = 4 ∧ m.detectedCorners = [] := by
  unfold decodeMeta at h
  rw [rbind_eq_some] at h
  obtain ⟨yaw, r1, _, h⟩ := h
  rw [rbind_eq_some] at h
  obtain ⟨pitch, r2, _, h⟩ := h
  rw [rbind_eq_some] at h
  obtain ⟨area, r3, _, h⟩ := h
  rw [rbind_eq_some] at h
  obtain ⟨skew, r4, _, h⟩ := h
  rw [rbind_eq_some] at h
  obtain ⟨fid, r5, _, h⟩ := h
  rw [rbind_eq_some] at h
  obtain ⟨oid, r6, _, h⟩ := h
  rw [rbind_eq_some] at h
  obtain ⟨conf, r7, _, h⟩ := h
  rw [rbind_eq_some] at h
  obtain ⟨best, r8, _, h⟩ := h
  rw [rbind_eq_some] at h
  obtain ⟨alt, r9, _, h⟩ := h
  rw [rbind_eq_some] at h
  obtain ⟨amb, r10, _, h⟩ := h
  rw [rbind_eq_some] at h
  obtain ⟨mar, r11, hmar, h⟩ := h
  obtain ⟨h1, h2⟩ :
      (⟨yaw, pitch, area, skew, fid, oid, conf, best, alt, amb, mar, []⟩ :
        PhotonTrackedTarget) = m ∧ r11 = rest := by
    simpa [rpure] using h
  rw [← h1]
  exact ⟨readPairs_length hmar, rfl⟩

theorem decodeTarget_minArea {bs : List Nat} {y : PhotonTrackedTarget}
    {rest : List Nat} (h : decodeTarget bs = some (y, rest)) :
    y.minAreaRectCorners.length = 4 := by
  unfold decodeTarget at h
  rw [rbind_eq_some] at h
  obtain ⟨m, r1, hmeta, h⟩ := h
  rw [rbind_eq_some] at h
  obtain ⟨c, r2, _, h⟩ := h
  rw [rbind_eq_some] at h
  obtain ⟨dc, r3, _, h⟩ := h
  obtain ⟨h1, h2⟩ : { m with detectedCorners := dc } = y ∧ r3 = rest := by
    simpa [rpure] using h
  rw [← h1]
  simpa using (decodeMeta_minArea hmeta).1

/-! ## Segment lengths -/

theorem pairListBytes_length (l : List (Nat × Nat)) :
    (pairListBytes l).length = 16 * l.length := by
  induction l with
  | nil => simp [pairListBytes]
  | cons c l ih =>
    have hstep : pairListBytes (c :: l) = pairBytes c ++ pairListBytes l := by
      simp [pairListBytes]
    simp [hstep, pairBytes, ih]
    omega

/-! ## Sample values for concrete instantiation -/

/-- A sample non-identity transform. -/
def sampleTransformA : Transform3d := ⟨1, 2, 3, 4, 5, 6, 7⟩

/-- Another sample non-identity transform. -/
def sampleTransformB : Transform3d := ⟨10, 20, 30, 40, 50, 60, 70⟩

/-- A sample representable target: fiducial id 7, object-detection class id
-1, confidence bits of -1.0f, two detected corners. -/
def sampleTarget : PhotonTrackedTarget :=
  ⟨100, 200, 300, 0, 7, -1, floatBitsNegOne, sampleTransformA,
    sampleTransformB, doubleBitsNegOne, [(1, 1), (50, 1), (50, 50), (1, 50)],
    [(2, 2), (49, 2)]⟩

/-- The sample target with `objDetectConfidence` constructed as 0 instead
of -1. -/
def sampleTargetZeroConf : PhotonTrackedTarget :=
  { sampleTarget with objDetectConf := 0 }

/-! ## Claims -/

/-- Claim C1: for every representable TrackedTarget (including boundary
sentinel/ratio values -1, 0, 1 and empty as well as large detectedCorners
lists), decoding the bytes produced by encoding it consumes the whole
encoding, and every target the decode yields is structurally equal to the
original under the field-wise equality of operator==. -/
theorem claim1_decode_encode_roundtrip (x : PhotonTrackedTarget)
    (h : x.Representable) :
    decodeTarget (encodeTarget x) = some (x, []) ∧
      ∀ y rest, decodeTarget (encodeTarget x) = some (y, rest) →
        PhotonTrackedTarget.targetEq y x = true := by
  refine ⟨decodeTarget_encodeTarget x h, ?_⟩
  intro y rest hy
  rw [decodeTarget_encodeTarget x h] at hy
  obtain ⟨h1, h2⟩ : x = y ∧ [] = rest := by simpa using hy
  rw [PhotonTrackedTarget.targetEq_iff_eq]
  exact h1.symm

/-- Concrete instantiation of claim C1 at the sample target. -/
theorem claim1_decode_encode_roundtrip_witness :
    decodeTarget (encodeTarget sampleTarget) = some (sampleTarget, []) ∧
      PhotonTrackedTarget.targetEq sampleTarget sampleTarget = true :=
  ⟨(claim1_decode_encode_roundtrip sampleTarget (by decide)).1,
    (claim1_decode_encode_roundtrip sampleTarget (by decide)).2 sampleTarget
      [] (claim1_decode_encode_roundtrip sampleTarget (by decide)).1⟩

/-- Claim C2: decoding a TrackedTarget fails with `none` (no silently
truncated target) on every strict prefix of a valid encoding — truncation
after any byte k less than the full encoded length — and whenever the
decoded detectedCorners length prefix declares a count whose pairs would
read past the end of the buffer. -/
theorem claim2_decode_underrun (t : PhotonTrackedTarget)
    (h : t.Representable) :
    (∀ k, k < (encodeTarget t).length →
      decodeTarget ((encodeTarget t).take k) = none) ∧
      ∀ c extra, c < 256 ^ 4 → extra.length < 16 * c →
        decodeTarget (metaBytes t ++ natToBytes 4 c ++ extra) = none :=
  ⟨fun k hk => decodeTarget_truncation t h k hk,
    fun c extra hc hshort => decodeTarget_count_overrun t h c hc extra hshort⟩

set_option maxRecDepth 4000 in
/-- Concrete instantiation of claim C2: a truncated sample encoding and a
corner count of 2 with only one byte after the prefix both fail. -/
theorem claim2_decode_underrun_witness :
    decodeTarget ((encodeTarget sampleTarget).take 100) = none ∧
      decodeTarget (metaBytes sampleTarget ++ natToBytes 4 2 ++ [0]) = none :=
  ⟨(claim2_decode_underrun sampleTarget (by decide)).1 100 (by decide),
    (claim2_decode_underrun sampleTarget (by decide)).2 2 [0] (by decide)
      (by decide)⟩

/-- Claim C3: the header's `PhotonTrackedTarget() = default` yields zero
yaw/pitch/area/skew, identity transforms and empty corner lists — but the
members `fiducialId`, `objDetectId`, `objDetectConf` and `poseAmbiguity`
have no member initializer, so they are left indeterminate rather than set
to the claimed -1 sentinels: realizing the indeterminate values as 0
exhibits a default-constructed target whose id, confidence and ambiguity
fields are not -1. -/
theorem claim3_default_placeholder :
    (∀ fid oid conf amb,
      (PhotonTrackedTarget.defaultCtor fid oid conf amb).yaw = 0 ∧
        (PhotonTrackedTarget.defaultCtor fid oid conf amb).pitch = 0 ∧
        (PhotonTrackedTarget.defaultCtor fid oid conf amb).area = 0 ∧
        (PhotonTrackedTarget.defaultCtor fid oid conf amb).skew = 0 ∧
        (PhotonTrackedTarget.defaultCtor fid oid conf amb).bestCameraToTarget =
          Transform3d.identityT ∧
        (PhotonTrackedTarget.defaultCtor fid oid conf amb).altCameraToTarget =
          Transform3d.identityT ∧
        (PhotonTrackedTarget.defaultCtor fid oid conf amb).minAreaRectCorners =
          [] ∧
        (PhotonTrackedTarget.defaultCtor fid oid conf amb).detectedCorners =
          []) ∧
      (PhotonTrackedTarget.defaultCtor 0 0 0 0).fiducialId ≠ -1 ∧
      (PhotonTrackedTarget.defaultCtor 0 0 0 0).objDetectId ≠ -1 ∧
      (PhotonTrackedTarget.defaultCtor 0 0 0 0).objDetectConf ≠
        floatBitsNegOne ∧
      (PhotonTrackedTarget.defaultCtor 0 0 0 0).poseAmbiguity ≠
        doubleBitsNegOne := by
  refine ⟨fun fid oid conf amb => ⟨rfl, rfl, rfl, rfl, rfl, rfl, rfl, rfl⟩,
    by decide, by decide, by decide, by decide⟩

/-- Claim C4: encoding writes the fields in exactly the fixed protocol
order and widths — yaw, pitch, area, skew as 8-byte doubles; fiducialId
then objDetectClassId as 4-byte signed integers; objDetectConfidence as a
4-byte float; both transforms in the transform type's 56-byte encoding;
poseAmbiguity as an 8-byte double; the minAreaRectCorners pairs with no
length prefix; then a 4-byte unsigned pair count followed by the
detectedCorners pairs in order — so a 4-corner target encodes to
232 + 16·|detectedCorners| bytes, and decoding reads the same segments in
the same order (it reconstructs the target from exactly these bytes). -/
theorem claim4_encoding_layout (t : PhotonTrackedTarget) :
    encodeTarget t =
      natToBytes 8 t.yaw ++ natToBytes 8 t.pitch ++ natToBytes 8 t.area ++
        natToBytes 8 t.skew ++ i32Bytes t.fiducialId ++
        i32Bytes t.objDetectId ++ natToBytes 4 t.objDetectConf ++
        transformBytes t.bestCameraToTarget ++
        transformBytes t.altCameraToTarget ++ natToBytes 8 t.poseAmbiguity ++
        pairListBytes t.minAreaRectCorners ++
        natToBytes 4 t.detectedCorners.length ++
        pairListBytes t.detectedCorners ∧
      (t.minAreaRectCorners.length = 4 →
        (encodeTarget t).length = 232 + 16 * t.detectedCorners.length) ∧
      (t.Representable → decodeTarget (encodeTarget t) = some (t, [])) := by
  refine ⟨by rw [encodeTarget_eq]; rfl, ?_, decodeTarget_encodeTarget t⟩
  intro hm
  rw [encodeTarget_eq]
  unfold targetBytes i32Bytes transformBytes
  simp [pairListBytes_length, hm]
  omega

/-- Concrete instantiation of claim C4 at the sample target (4 rectangle
corners, 2 detected corners, so 264 encoded bytes). -/
theorem claim4_encoding_layout_witness :
    (encodeTarget sampleTarget).length =
        232 + 16 * sampleTarget.detectedCorners.length ∧
      decodeTarget (encodeTarget sampleTarget) = some (sampleTarget, []) :=
  ⟨(claim4_encoding_layout sampleTarget).2.1 (by decide),
    (claim4_encoding_layout sampleTarget).2.2 (by decide)⟩

/-- Claim C5: operator== holds exactly when all twelve fields — yaw, pitch,
area, skew, fiducialId, objDetectClassId, objDetectConfidence,
bestCameraToTarget, alternateCameraToTarget, poseAmbiguity,
minAreaRectCorners and detectedCorners — compare pairwise equal, with the
floating-point bit patterns compared exactly; equivalently, exactly on
structurally identical targets. -/
theorem claim5_structural_equality (a b : PhotonTrackedTarget) :
    (PhotonTrackedTarget.targetEq a b = true ↔
      a.yaw = b.yaw ∧ a.pitch = b.pitch ∧ a.area = b.area ∧
        a.skew = b.skew ∧ a.fiducialId = b.fiducialId ∧
        a.objDetectId = b.objDetectId ∧ a.objDetectConf = b.objDetectConf ∧
        a.bestCameraToTarget = b.bestCameraToTarget ∧
        a.altCameraToTarget = b.altCameraToTarget ∧
        a.poseAmbiguity = b.poseAmbiguity ∧
        a.minAreaRectCorners = b.minAreaRectCorners ∧
        a.detectedCorners = b.detectedCorners) ∧
      (PhotonTrackedTarget.targetEq a b = true ↔ a = b) :=
  ⟨PhotonTrackedTarget.targetEq_iff_fields a b,
    PhotonTrackedTarget.targetEq_iff_eq a b⟩

/-- Claim C6: when the stored bestCameraToTarget equals the identity
transform, the accessor emits the documented warning exactly once (its
diagnostic list is the one-element list) and returns the identity; when it
differs from identity, it emits nothing and returns the stored transform.
In both cases the object is unchanged. -/
theorem claim6_identity_pose_diag (t : PhotonTrackedTarget) :
    (t.bestCameraToTarget = Transform3d.identityT →
      PhotonTrackedTarget.GetBestCameraToTarget t =
        (Transform3d.identityT, t, [PhotonTrackedTarget.warn3dMsg])) ∧
      (t.bestCameraToTarget ≠ Transform3d.identityT →
        PhotonTrackedTarget.GetBestCameraToTarget t =
          (t.bestCameraToTarget, t, [])) := by
  constructor
  · intro h
    simp [PhotonTrackedTarget.GetBestCameraToTarget, h]
  · intro h
    simp [PhotonTrackedTarget.GetBestCameraToTarget, h]

/-- Concrete instantiation of claim C6: a default-constructed target warns
and returns identity; the sample target is silent. -/
theorem claim6_identity_pose_diag_witness :
    PhotonTrackedTarget.GetBestCameraToTarget
        (PhotonTrackedTarget.defaultCtor 0 0 0 0) =
      (Transform3d.identityT, PhotonTrackedTarget.defaultCtor 0 0 0 0,
        [PhotonTrackedTarget.warn3dMsg]) ∧
      PhotonTrackedTarget.GetBestCameraToTarget sampleTarget =
        (sampleTarget.bestCameraToTarget, sampleTarget, []) :=
  ⟨(claim6_identity_pose_diag (PhotonTrackedTarget.defaultCtor 0 0 0 0)).1
      (by decide),
    (claim6_identity_pose_diag sampleTarget).2 (by decide)⟩

/-- Claim C7: minAreaRectCorners has exactly 4 entries — after construction
from any producer arguments satisfying the producer interface (a 4-pair
bounding-rectangle list), and in every target a successful decode returns,
whatever the input bytes. -/
theorem claim7_minarea_invariant :
    (∀ yaw pitch area skew fid oid conf pose alt amb mar dc,
      mar.length = 4 →
        (PhotonTrackedTarget.mk12 yaw pitch area skew fid oid conf pose alt
          amb mar dc).minAreaRectCorners.length = 4) ∧
      ∀ bs y rest, decodeTarget bs = some (y, rest) →
        y.minAreaRectCorners.length = 4 :=
  ⟨fun _ _ _ _ _ _ _ _ _ _ _ _ h => h,
    fun _ _ _ h => decodeTarget_minArea h⟩

/-- Concrete instantiation of claim C7: a constructed target and a decoded
target each carry exactly 4 rectangle corners. -/
theorem claim7_minarea_invariant_witness :
    (PhotonTrackedTarget.mk12 0 0 0 0 0 0 0 Transform3d.identityT
        Transform3d.identityT 0 [(0, 0), (1, 1), (2, 2), (3, 3)]
        []).minAreaRectCorners.length = 4 ∧
      sampleTarget.minAreaRectCorners.length = 4 :=
  ⟨claim7_minarea_invariant.1 0 0 0 0 0 0 0 Transform3d.identityT
      Transform3d.identityT 0 [(0, 0), (1, 1), (2, 2), (3, 3)] [] (by decide),
    claim7_minarea_invariant.2 (encodeTarget sampleTarget) sampleTarget []
      (decodeTarget_encodeTarget sampleTarget (by decide))⟩

/-- Claim C8: two representable targets, one constructed with
objDetectConfidence = -1 (its float bit pattern) and the other with
objDetectConfidence = 0, each round-trip through encode/decode unchanged
and remain distinguishable: they are not equal under operator==. -/
theorem claim8_sentinel_boundary (x y : PhotonTrackedTarget)
    (hx : x.Representable) (hy : y.Representable)
    (hcx : x.objDetectConf = floatBitsNegOne) (hcy : y.objDetectConf = 0) :
    decodeTarget (encodeTarget x) = some (x, []) ∧
      decodeTarget (encodeTarget y) = some (y, []) ∧
      PhotonTrackedTarget.targetEq x y = false := by
  refine ⟨decodeTarget_encodeTarget x hx, decodeTarget_encodeTarget y hy, ?_⟩
  cases h : PhotonTrackedTarget.targetEq x y with
  | false => rfl
  | true =>
    exfalso
    rw [PhotonTrackedTarget.targetEq_iff_fields] at h
    have hconf := h.2.2.2.2.2.2.1
    rw [hcx, hcy] at hconf
    simp [floatBitsNegOne] at hconf

/-- Concrete instantiation of claim C8 at the sample targets with
confidence -1 and 0. -/
theorem claim8_sentinel_boundary_witness :
    decodeTarget (encodeTarget sampleTarget) = some (sampleTarget, []) ∧
      decodeTarget (encodeTarget sampleTargetZeroConf) =
        some (sampleTargetZeroConf, []) ∧
      PhotonTrackedTarget.targetEq sampleTarget sampleTargetZeroConf =
        false :=
  claim8_sentinel_boundary sampleTarget sampleTargetZeroConf (by decide)
    (by decide) (by decide) (by decide)

/-- Claim C9: every accessor returns its stored field and leaves the
object unchanged; all accessors emit no diagnostic, except
GetBestCameraToTarget whose only effect beyond returning the stored
transform is the identity-pose diagnostic. -/
theorem claim9_accessors_pure (t : PhotonTrackedTarget) :
    PhotonTrackedTarget.GetYaw t = (t.yaw, t, []) ∧
      PhotonTrackedTarget.GetPitch t = (t.pitch, t, []) ∧
      PhotonTrackedTarget.GetArea t = (t.area, t, []) ∧
      PhotonTrackedTarget.GetSkew t = (t.skew, t, []) ∧
      PhotonTrackedTarget.GetFiducialId t = (t.fiducialId, t, []) ∧
      PhotonTrackedTarget.GetDetectedObjectClassID t =
        (t.objDetectId, t, []) ∧
      PhotonTrackedTarget.GetDetectedObjectConfidence t =
        (t.objDetectConf, t, []) ∧
      PhotonTrackedTarget.GetMinAreaRectCorners t =
        (t.minAreaRectCorners, t, []) ∧
      PhotonTrackedTarget.GetDetectedCorners t =
        (t.detectedCorners, t, []) ∧
      PhotonTrackedTarget.GetPoseAmbiguity t = (t.poseAmbiguity, t, []) ∧
      PhotonTrackedTarget.GetAlternateCameraToTarget t =
        (t.altCameraToTarget, t, []) ∧
      PhotonTrackedTarget.GetBestCameraToTarget t =
        (t.bestCameraToTarget, t,
          if t.bestCameraToTarget = Transform3d.identityT then
            [PhotonTrackedTarget.warn3dMsg]
          else []) :=
  ⟨rfl, rfl, rfl, rfl, rfl, rfl, rfl, rfl, rfl, rfl, rfl, rfl⟩

/-- Claim C10: GetDetectedObjectClassID returns the stored objDetectId
member (not the fiducial id, despite its documentation comment), and
GetFiducialId returns the fiducialId member; on a target whose two id
fields differ, the two accessors return different values. -/
theorem claim10_class_id_accessor (t : PhotonTrackedTarget) :
    (PhotonTrackedTarget.GetDetectedObjectClassID t).1 = t.objDetectId ∧
      (PhotonTrackedTarget.GetFiducialId t).1 = t.fiducialId ∧
      (t.objDetectId ≠ t.fiducialId →
        (PhotonTrackedTarget.GetDetectedObjectClassID t).1 ≠
          (PhotonTrackedTarget.GetFiducialId t).1) :=
  ⟨rfl, rfl, fun h => h⟩

/-- Concrete instantiation of claim C10 at the sample target, whose class
id is -1 and fiducial id is 7. -/
theorem claim10_class_id_accessor_witness :
    (PhotonTrackedTarget.GetDetectedObjectClassID sampleTarget).1 =
        sampleTarget.objDetectId ∧
      (PhotonTrackedTarget.GetFiducialId sampleTarget).1 =
        sampleTarget.fiducialId ∧
      (PhotonTrackedTarget.GetDetectedObjectClassID sampleTarget).1 ≠
        (PhotonTrackedTarget.GetFiducialId sampleTarget).1 :=
  ⟨(claim10_class_id_accessor sampleTarget).1,
    (claim10_class_id_accessor sampleTarget).2.1,
    (claim10_class_id_accessor sampleTarget).2.2 (by decide)⟩

end Photon
